import Mathlib

/-!
Verification of the Teapot stack-resolution engine design.

The engine is specified in the repository by two design documents:
`TeapotEngine/docs/COUNTER_SYSTEM.md` (event prevention and atomic event
groups, with pseudocode for `_resolve_event` and `_prevent_event_group`)
and the Snap Engine design document (the LIFO stack, `resolveTop`,
discovery/ordering of reactions, limiters, validation and replay).
This file gives a shallow embedding of that design: events, registries,
the stack, the limiter tracker, discovery, and the resolution step, and
proves the specified properties about them.
-/

namespace Teapot

/-- Event status, per the Event data contract:
"pending" | "applied" | "prevented" | "failed". -/
inductive EventStatus where
  | pending
  | applied
  | prevented
  | failed
deriving DecidableEq

/-- Payload values are opaque structured data; the model uses numeric and
string leaves. -/
inductive PVal where
  | num (n : Nat)
  | str (s : String)
deriving DecidableEq

abbrev Payload := List (String × PVal)

/-- Numeric payload lookup (0 when the key is absent or non-numeric). -/
def pgetN (p : Payload) (k : String) : Nat :=
  match p.find? (fun q => q.1 = k) with
  | some (_, PVal.num n) => n
  | _ => 0

/-- An Event: id, type tag, payload, causal parent, status, plus the
`group_id` / `prevents_group` fields added by COUNTER_SYSTEM.md. -/
structure Event where
  id : Nat
  type : String
  payload : Payload
  caused_by : Option Nat
  status : EventStatus
  group_id : Option Nat
  prevents_group : Bool
deriving DecidableEq

/-- The Event registry: a private monotonically increasing id counter and
the registered events in registration (ascending id) order. -/
structure EventRegistry where
  next_id : Nat
  events : List Event
deriving DecidableEq

def EventRegistry.get (reg : EventRegistry) (i : Nat) : Option Event :=
  reg.events.find? (fun e => e.id = i)

def EventRegistry.register (reg : EventRegistry) (mk : Nat → Event) :
    EventRegistry × Nat :=
  ({ next_id := reg.next_id + 1, events := reg.events ++ [mk reg.next_id] },
   reg.next_id)

def EventRegistry.unregister (reg : EventRegistry) (i : Nat) : EventRegistry :=
  { reg with events := reg.events.filter (fun e => ¬ e.id = i) }

def EventRegistry.get_all_event_ids (reg : EventRegistry) : List Nat :=
  reg.events.map Event.id

/-- The status rewrite `_prevent_event_group` performs on one registry
entry: a still-pending event of the group becomes prevented, any other
event is left untouched. -/
def prevent_in_group (group_id : Nat) (e : Event) : Event :=
  if e.group_id = some group_id ∧ e.status = EventStatus.pending then
    { e with status := EventStatus.prevented }
  else e

/-- `_prevent_event_group` from COUNTER_SYSTEM.md: scan every registered
event and set every still-`PENDING` event carrying this `group_id` to
`PREVENTED`.  The scan follows registry order, which is ascending event-id
order since ids are assigned by the monotonic counter. -/
def _prevent_event_group (reg : EventRegistry) (group_id : Nat) :
    EventRegistry :=
  { reg with events := reg.events.map (prevent_in_group group_id) }

/-- StackItem kind: "event" | "reaction". -/
inductive ItemKind where
  | event
  | reaction
deriving DecidableEq

/-- A StackItem: kind, reference id, monotonic creation order, and the
transient flag recording that before-reactions were already scheduled. -/
structure StackItem where
  kind : ItemKind
  ref_id : Nat
  created_at_order : Nat
  before_scheduled : Bool
deriving DecidableEq

/-- Reaction timing: scheduled before its event resolves, or discovered
after resolution. -/
inductive Timing where
  | before
  | after
deriving DecidableEq

/-- Limiter scopes: `oncePerTurn`, `oncePerSource`, `maxPerEvent`. -/
inductive LimiterScope where
  | per_turn
  | per_source
  | per_event
deriving DecidableEq

/-- A declared firing limiter: scope plus cap. -/
structure Limiter where
  scope : LimiterScope
  cap : Nat
deriving DecidableEq

/-- A trigger rule of the Ruleset IR: rule id, owning source, matched
event type, timing, declaration index within its source, optional
limiter, and the event type its effect emits when it resolves. -/
structure TriggerRule where
  rule_id : Nat
  source_id : Nat
  event_type : String
  timing : Timing
  decl_index : Nat
  limiter : Option Limiter
  effect_event_type : String
deriving DecidableEq

/-- A materialized Reaction instance: id, triggering rule, causing event. -/
structure Reaction where
  id : Nat
  rule : TriggerRule
  caused_by : Nat
deriving DecidableEq

/-- The Reaction registry, independent from the Event registry. -/
structure ReactionRegistry where
  next_id : Nat
  reactions : List Reaction
deriving DecidableEq

def ReactionRegistry.get (reg : ReactionRegistry) (i : Nat) : Option Reaction :=
  reg.reactions.find? (fun r => r.id = i)

def ReactionRegistry.unregister (reg : ReactionRegistry) (i : Nat) :
    ReactionRegistry :=
  { reg with reactions := reg.reactions.filter (fun r => ¬ r.id = i) }

/-- Fire counters of the Limiter Tracker, keyed by
(rule id, source id, scope). -/
abbrev LimiterKey := Nat × Nat × LimiterScope

/-- Counter lookup (0 when the key was never bumped). -/
def tget : List (LimiterKey × Nat) → LimiterKey → Nat
  | [], _ => 0
  | q :: rest, k => if q.1 = k then q.2 else tget rest k

/-- Increment the counter of one key. -/
def tbump : List (LimiterKey × Nat) → LimiterKey → List (LimiterKey × Nat)
  | [], k => [(k, 1)]
  | q :: rest, k => if q.1 = k then (q.1, q.2 + 1) :: rest else q :: tbump rest k

/-- Modelled from the spec: the Limiter Tracker implementation is not in
the repository sources (only the design documents describe it); it tracks
trigger fire counters keyed by (ruleId, sourceId, scope). -/
structure LimiterTracker where
  counts : List (LimiterKey × Nat)
deriving DecidableEq

def LimiterTracker.get (t : LimiterTracker) (k : LimiterKey) : Nat :=
  tget t.counts k

def LimiterTracker.bump (t : LimiterTracker) (k : LimiterKey) : LimiterTracker :=
  { counts := tbump t.counts k }

/-- Modelled from the spec: reaction materialization consults the Limiter
Tracker; a discovered reaction whose counter reached its declared cap is
dropped silently from the discovered set (not an error), the others are
kept in discovery order and their counters are bumped. -/
def materialize_reactions (t : LimiterTracker) :
    List TriggerRule → LimiterTracker × List TriggerRule
  | [] => (t, [])
  | r :: rest =>
    match r.limiter with
    | none =>
      let p := materialize_reactions t rest
      (p.1, r :: p.2)
    | some lim =>
      let k : LimiterKey := (r.rule_id, r.source_id, lim.scope)
      if lim.cap ≤ t.get k then
        materialize_reactions t rest
      else
        let p := materialize_reactions (t.bump k) rest
        (p.1, r :: p.2)

/-- The match state derived by folding applied events: current phase,
per-player resources, card zones, and the applied-event history. -/
structure GameState where
  phase : Nat
  resources : List (Nat × Nat)
  zones : List (Nat × Nat)
  history : List Nat
deriving DecidableEq

/-- Association lookup with default. -/
def lookupD (l : List (Nat × Nat)) (k d : Nat) : Nat :=
  match l.find? (fun q => q.1 = k) with
  | some q => q.2
  | none => d

/-- Association update (inserting the key when absent). -/
def updAssoc (l : List (Nat × Nat)) (k : Nat) (f : Nat → Nat) :
    List (Nat × Nat) :=
  if l.any (fun q => q.1 = k) then
    l.map (fun q => if q.1 = k then (q.1, f q.2) else q)
  else l ++ [(k, f 0)]

/-- The external state-fold function: apply one persisted event to the
derived match state. -/
def GameState.apply_event (s : GameState) (e : Event) : GameState :=
  let s0 : GameState := { s with history := s.history ++ [e.id] }
  if e.type = "ResourceChanged" then
    let res := updAssoc s0.resources (pgetN e.payload "player") (fun v => v + pgetN e.payload "amount")
    { s0 with resources := res }
  else if e.type = "CardMoved" then
    let zs := updAssoc s0.zones (pgetN e.payload "card") (fun _ => pgetN e.payload "to")
    { s0 with zones := zs }
  else if e.type = "PhaseStarted" then
    { s0 with phase := pgetN e.payload "phase" }
  else if e.type = "Damaged" then
    let res := updAssoc s0.resources (pgetN e.payload "target") (fun v => v - pgetN e.payload "amount")
    { s0 with resources := res }
  else s0

/-- Controller lookup: which player controls a source, per current state. -/
def controller_of (ctr : List (Nat × Nat)) (src : Nat) : Option Nat :=
  (ctr.find? (fun q => q.1 = src)).map (fun q => q.2)

/-- Sources controlled by the currently active player order before all
others. -/
def reaction_priority (active : Nat) (ctr : List (Nat × Nat))
    (r : TriggerRule) : Nat :=
  if controller_of ctr r.source_id = some active then 0 else 1

/-- The deterministic total order on discovered reactions: active player's
sources first, then rule id, then declaration order within a source. -/
def reaction_le (active : Nat) (ctr : List (Nat × Nat))
    (a b : TriggerRule) : Prop :=
  reaction_priority active ctr a < reaction_priority active ctr b
  ∨ (reaction_priority active ctr a = reaction_priority active ctr b
     ∧ (a.rule_id < b.rule_id
        ∨ (a.rule_id = b.rule_id ∧ a.decl_index ≤ b.decl_index)))

instance (active : Nat) (ctr : List (Nat × Nat)) :
    DecidableRel (reaction_le active ctr) := fun a b => by
  unfold reaction_le
  infer_instance

instance (active : Nat) (ctr : List (Nat × Nat)) :
    IsTotal TriggerRule (reaction_le active ctr) := by
  refine ⟨fun a b => ?_⟩
  unfold reaction_le
  omega

instance (active : Nat) (ctr : List (Nat × Nat)) :
    IsTrans TriggerRule (reaction_le active ctr) := by
  refine ⟨fun a b c hab hbc => ?_⟩
  unfold reaction_le at hab hbc ⊢
  omega

/-- Matching of a trigger rule against an event: declared event type plus
the timing classification. -/
def rule_matches (tm : Timing) (e : Event) (r : TriggerRule) : Prop :=
  r.timing = tm ∧ r.event_type = e.type

instance (tm : Timing) (e : Event) (r : TriggerRule) :
    Decidable (rule_matches tm e r) := by
  unfold rule_matches
  infer_instance

/-- Modelled from the spec: the Trigger Discovery Index implementation is
not in the repository sources (only the design documents); it returns the
rules matching the event in the deterministic total order of
`reaction_le` (stable sort). -/
def discover_reactions (rs : List TriggerRule) (active : Nat)
    (ctr : List (Nat × Nat)) (tm : Timing) (e : Event) : List TriggerRule :=
  List.insertionSort (reaction_le active ctr)
    (rs.filter (fun r => rule_matches tm e r))

/-- A suspended decision point awaiting a player answer. -/
structure PendingInput where
  input_id : Nat
  for_player : Nat
  selector_zone : Nat
  count : Nat
deriving DecidableEq

/-- The per-match engine (Match Actor): ruleset, controllers, active
player, seeded RNG, registries, the LIFO stack with its monotonic order
counter, the limiter tracker, the derived state, the persisted event log
and the optional pending input. -/
structure Engine where
  ruleset : List TriggerRule
  controllers : List (Nat × Nat)
  active_player : Nat
  rng_seed : Nat
  event_registry : EventRegistry
  reaction_registry : ReactionRegistry
  stack : List StackItem
  stack_order : Nat
  limiters : LimiterTracker
  state : GameState
  log : List Event
  pending_input : Option PendingInput
deriving DecidableEq

/-- `push`: the head of the stack list is the top of the LIFO stack. -/
def Engine.push (eng : Engine) (it : StackItem) : Engine :=
  { eng with stack := it :: eng.stack }

/-- `pushAll`: the first item of the set ends on top, so it resolves
first. -/
def push_all (eng : Engine) (items : List StackItem) : Engine :=
  { eng with stack := items ++ eng.stack }

/-- Ghost trace of the operations one resolution step performs, in
order. -/
inductive ResolveOp where
  | pop (ref_id : Nat)
  | discover_before (event_id : Nat)
  | discover_after (event_id : Nat)
  | prevent_group (group_id : Nat)
  | emit_prevented (event_id : Nat)
  | apply_ev (event_id : Nat)
  | apply_rxn (reaction_id : Nat)
  | unregister (event_id : Nat)
deriving DecidableEq

/-- Materialized reactions are registered in the Reaction registry and
wrapped as stack items carrying their creation order. -/
def register_reactions (eng : Engine) (cause : Nat) :
    List TriggerRule → Engine × List StackItem
  | [] => (eng, [])
  | r :: rest =>
    let rid := eng.reaction_registry.next_id
    let reg : ReactionRegistry :=
      { next_id := rid + 1,
        reactions := eng.reaction_registry.reactions ++ [{ id := rid, rule := r, caused_by := cause }] }
    let item : StackItem :=
      { kind := ItemKind.reaction, ref_id := rid,
        created_at_order := eng.stack_order, before_scheduled := false }
    let eng1 : Engine :=
      { eng with reaction_registry := reg, stack_order := eng.stack_order + 1 }
    let p := register_reactions eng1 cause rest
    (p.1, item :: p.2)

/-- `_push_event_and_resolve` from COUNTER_SYSTEM.md: register a fresh
projection event and push it onto the stack, on top, so it resolves
before anything below the current item. -/
def _push_event_and_resolve (eng : Engine) (mk : Nat → Event) :
    Engine × Event :=
  let p := eng.event_registry.register mk
  let ev := mk p.2
  let item : StackItem :=
    { kind := ItemKind.event, ref_id := p.2,
      created_at_order := eng.stack_order, before_scheduled := false }
  ({ eng with event_registry := p.1, stack_order := eng.stack_order + 1,
               stack := item :: eng.stack }, ev)

/-- Group prevention as invoked from `_resolve_event`: only the event
registry changes. -/
def prevent_group_step (eng : Engine) (group_id : Nat) : Engine :=
  { eng with event_registry := _prevent_event_group eng.event_registry group_id }

/-- The `EventPrevented` projection event emitted for a prevented event. -/
def mk_event_prevented (cause : Event) (i : Nat) : Event :=
  { id := i, type := "EventPrevented",
    payload := [("prevented_event_id", PVal.num cause.id),
                ("prevented_event_type", PVal.str cause.type)],
    caused_by := some cause.id, status := EventStatus.pending,
    group_id := none, prevents_group := false }

/-- `_resolve_event` from COUNTER_SYSTEM.md ("Stack Resolution with
Prevention"): if the popped event was prevented by pre-reactions,
propagate prevention to its atomic group, emit one `EventPrevented`
projection event, and unregister it without applying it; otherwise apply
it to state, persist it, discover after-reactions (respecting limiters),
push them, and unregister the resolved event. -/
def _resolve_event (eng : Engine) (item : StackItem) (event : Event) :
    Engine × List ResolveOp :=
  if event.status = EventStatus.prevented then
    let s1 :=
      match event.prevents_group, event.group_id with
      | true, some gid => (prevent_group_step eng gid, [ResolveOp.prevent_group gid])
      | _, _ => (eng, ([] : List ResolveOp))
    let s2 := _push_event_and_resolve s1.1 (mk_event_prevented event)
    let reg := s2.1.event_registry.unregister item.ref_id
    ({ s2.1 with event_registry := reg },
     s1.2 ++ [ResolveOp.emit_prevented event.id, ResolveOp.unregister item.ref_id])
  else
    let ev' : Event := { event with status := EventStatus.applied }
    let reg1 : EventRegistry :=
      { eng.event_registry with
        events := eng.event_registry.events.map (fun e => if e.id = event.id then ev' else e) }
    let eng1 : Engine :=
      { eng with event_registry := reg1,
                 state := eng.state.apply_event ev',
                 log := eng.log ++ [ev'] }
    let discovered := discover_reactions eng1.ruleset eng1.active_player eng1.controllers Timing.after ev'
    let pm := materialize_reactions eng1.limiters discovered
    let eng2 : Engine := { eng1 with limiters := pm.1 }
    let pr := register_reactions eng2 event.id pm.2
    let eng3 := push_all pr.1 pr.2
    let reg2 := eng3.event_registry.unregister item.ref_id
    ({ eng3 with event_registry := reg2 },
     [ResolveOp.apply_ev event.id, ResolveOp.discover_after event.id,
      ResolveOp.unregister item.ref_id])

/-- Resolving a reaction stack item: its effect emits the declared event,
registered and pushed on top of the stack; the reaction instance is then
destroyed. -/
def apply_reaction (eng : Engine) (item : StackItem) :
    Engine × List ResolveOp :=
  match eng.reaction_registry.get item.ref_id with
  | none => (eng, [])
  | some rxn =>
    let mk : Nat → Event := fun i =>
      { id := i, type := rxn.rule.effect_event_type, payload := [],
        caused_by := some rxn.caused_by, status := EventStatus.pending,
        group_id := none, prevents_group := false }
    let p := eng.event_registry.register mk
    let sitem : StackItem :=
      { kind := ItemKind.event, ref_id := p.2,
        created_at_order := eng.stack_order, before_scheduled := false }
    let rreg := eng.reaction_registry.unregister rxn.id
    ({ eng with event_registry := p.1, reaction_registry := rreg,
                stack := sitem :: eng.stack,
                stack_order := eng.stack_order + 1 },
     [ResolveOp.apply_rxn rxn.id])

/-- `resolveTop` from the Snap Engine design: pop the top item; an event
whose before-reactions were not yet scheduled first runs before-discovery
and, when the materialized set is nonempty, is pushed back flagged with
the before-reactions above it; otherwise the item applies now. -/
def resolveTop (eng : Engine) : Engine × List ResolveOp :=
  match eng.stack with
  | [] => (eng, [])
  | item :: rest =>
    let eng0 : Engine := { eng with stack := rest }
    match item.kind with
    | ItemKind.reaction =>
      let p := apply_reaction eng0 item
      (p.1, ResolveOp.pop item.ref_id :: p.2)
    | ItemKind.event =>
      match eng0.event_registry.get item.ref_id with
      | none => (eng0, [ResolveOp.pop item.ref_id])
      | some event =>
        if item.before_scheduled = false then
          let before := discover_reactions eng0.ruleset eng0.active_player eng0.controllers Timing.before event
          let pm := materialize_reactions eng0.limiters before
          let eng1 : Engine := { eng0 with limiters := pm.1 }
          if pm.2.isEmpty then
            let p := _resolve_event eng1 item event
            (p.1, ResolveOp.pop item.ref_id :: ResolveOp.discover_before item.ref_id :: p.2)
          else
            let eng2 := eng1.push { item with before_scheduled := true }
            let pr := register_reactions eng2 item.ref_id pm.2
            let eng3 := push_all pr.1 pr.2
            (eng3, [ResolveOp.pop item.ref_id, ResolveOp.discover_before item.ref_id])
        else
          let p := _resolve_event eng0 item event
          (p.1, ResolveOp.pop item.ref_id :: p.2)

/-- The resolution loop: resolve the top of the stack until the stack is
empty (a priority window) or the fuel runs out. -/
def runLoop : Nat → Engine → Engine × List ResolveOp
  | 0, eng => (eng, [])
  | Nat.succ n, eng =>
    if eng.stack.isEmpty then (eng, [])
    else
      let p1 := resolveTop eng
      let p2 := runLoop n p1.1
      (p2.1, p1.2 ++ p2.2)

/-- Replay: fold a persisted event log into a state. -/
def replay_log (s0 : GameState) (log : List Event) : GameState :=
  log.foldl GameState.apply_event s0

/-- The event ids applied by a trace, in order. -/
def applied_ids (ops : List ResolveOp) : List Nat :=
  ops.filterMap (fun o =>
    match o with
    | ResolveOp.apply_ev i => some i
    | _ => none)

/-- Action preconditions of the Ruleset IR operations evaluated against
state: `phase_allows`, `has_resource`, `in_zone`. -/
inductive Precond where
  | phase_allows (phase : Nat)
  | has_resource (player : Nat) (atLeast : Nat)
  | in_zone (card : Nat) (zone : Nat)
deriving DecidableEq

/-- Evaluate one precondition against the current state. -/
def check_precond (s : GameState) : Precond → Bool
  | Precond.phase_allows ph => s.phase = ph
  | Precond.has_resource p n => n ≤ lookupD s.resources p 0
  | Precond.in_zone c z => lookupD s.zones c 0 = z

/-- A declared action of the Ruleset IR: id, preconditions, and the engine
event it translates to. -/
structure ActionDef where
  action_id : String
  preconditions : List Precond
  event_type : String
  payload : Payload
deriving DecidableEq

/-- Modelled from the spec: the action validation pipeline implementation
is not in the repository sources (only the design documents); inbound
actions are checked against the declared preconditions and rejected with
an error message when any fails. -/
def validate_action (eng : Engine) (a : ActionDef) : Option String :=
  if a.preconditions.all (fun p => check_precond eng.state p) then none
  else some ("invalid action: " ++ a.action_id)

/-- Modelled from the spec: action submission (the implementation is not
in the repository sources); a validation failure returns the error and
does not mutate state, a validated action is translated into an Event
pushed onto the stack. -/
def submit_action (eng : Engine) (a : ActionDef) : Engine × Option String :=
  match validate_action eng a with
  | some msg => (eng, some msg)
  | none =>
    let mk : Nat → Event := fun i =>
      { id := i, type := a.event_type, payload := a.payload,
        caused_by := none, status := EventStatus.pending,
        group_id := none, prevents_group := false }
    let p := eng.event_registry.register mk
    let item : StackItem :=
      { kind := ItemKind.event, ref_id := p.2,
        created_at_order := eng.stack_order, before_scheduled := false }
    ({ eng with event_registry := p.1, stack := item :: eng.stack,
                stack_order := eng.stack_order + 1 }, none)

/-- Modelled from the spec: input answer validation against the original
constraints of the pending input (the implementation is not in the
repository sources): matching input id, answer count, selector
membership. -/
def validate_input (eng : Engine) (input_id : Nat) (answers : List Nat) :
    Option String :=
  match eng.pending_input with
  | none => some "no pending input"
  | some pin =>
    if ¬ pin.input_id = input_id then some "unknown input id"
    else if ¬ answers.length = pin.count then some "wrong answer count"
    else if answers.all (fun c => lookupD eng.state.zones c 0 = pin.selector_zone) then none
    else some "answer outside selector"

/-- Modelled from the spec: input submission (the implementation is not in
the repository sources); a validation failure returns the error and does
not mutate state, a validated answer closes the pending input and resumes
resolution with an `InputResolved` event. -/
def submit_input (eng : Engine) (input_id : Nat) (answers : List Nat) :
    Engine × Option String :=
  match validate_input eng input_id answers with
  | some msg => (eng, some msg)
  | none =>
    let mk : Nat → Event := fun i =>
      { id := i, type := "InputResolved",
        payload := [("input_id", PVal.num input_id)],
        caused_by := none, status := EventStatus.pending,
        group_id := none, prevents_group := false }
    let p := eng.event_registry.register mk
    let item : StackItem :=
      { kind := ItemKind.event, ref_id := p.2,
        created_at_order := eng.stack_order, before_scheduled := false }
    ({ eng with event_registry := p.1, pending_input := none,
                stack := item :: eng.stack,
                stack_order := eng.stack_order + 1 }, none)

/-! Concrete scenario fixtures used by the witnesses. -/

/-- An initial derived state for the concrete scenarios: two players with
5 resources, two cards in zone 3. -/
def wState : GameState :=
  { phase := 0, resources := [(1, 5), (2, 5)], zones := [(10, 3), (11, 3)],
    history := [] }

/-- Group scenario (COUNTER_SYSTEM.md example): card creation group 1. -/
def wEv1 : Event :=
  { id := 1, type := "CardCreated", payload := [], caused_by := none,
    status := EventStatus.pending, group_id := some 1, prevents_group := false }

/-- The `CardMoved` member, prevented by a pre-reaction, carrying
`prevents_group`. -/
def wEv2 : Event :=
  { id := 2, type := "CardMoved",
    payload := [("card", PVal.num 10), ("to", PVal.num 4)],
    caused_by := some 1, status := EventStatus.prevented,
    group_id := some 1, prevents_group := true }

/-- A further pending member of group 1. -/
def wEv3 : Event :=
  { id := 3, type := "PowerChanged", payload := [], caused_by := some 1,
    status := EventStatus.pending, group_id := some 1, prevents_group := false }

/-- A pending event of an unrelated group. -/
def wEv4 : Event :=
  { id := 4, type := "CardDrawn", payload := [], caused_by := none,
    status := EventStatus.pending, group_id := some 2, prevents_group := false }

/-- An already applied member of group 1. -/
def wEv5 : Event :=
  { id := 5, type := "ResourceChanged", payload := [], caused_by := none,
    status := EventStatus.applied, group_id := some 1, prevents_group := false }

/-- The stack item popping the prevented `CardMoved` event. -/
def wItem1 : StackItem :=
  { kind := ItemKind.event, ref_id := 2, created_at_order := 0,
    before_scheduled := true }

/-- The match actor state of the group scenario. -/
def wEng1 : Engine :=
  { ruleset := [], controllers := [(10, 1), (11, 2)], active_player := 1,
    rng_seed := 42,
    event_registry := { next_id := 6, events := [wEv1, wEv2, wEv3, wEv4, wEv5] },
    reaction_registry := { next_id := 0, reactions := [] },
    stack := [], stack_order := 1, limiters := { counts := [] },
    state := wState, log := [], pending_input := none }


/-- A discovery rule triggering before the combat example's `Attack`
event, owned by the defender's source. -/
def wRuleA : TriggerRule :=
  { rule_id := 7, source_id := 11, event_type := "Attack",
    timing := Timing.before, decl_index := 0, limiter := none,
    effect_event_type := "CounterAttack" }

/-- A second before-rule on `Attack`, owned by the active player's
source. -/
def wRuleB : TriggerRule :=
  { rule_id := 9, source_id := 10, event_type := "Attack",
    timing := Timing.before, decl_index := 1, limiter := none,
    effect_event_type := "Shield" }

/-- An after-rule on `Damaged` with a once-per-turn limiter. -/
def wRuleC : TriggerRule :=
  { rule_id := 3, source_id := 11, event_type := "Damaged",
    timing := Timing.after, decl_index := 0,
    limiter := some { scope := LimiterScope.per_turn, cap := 1 },
    effect_event_type := "CardDrawn" }

/-- The `Attack` event of the combat examples. -/
def wAttack : Event :=
  { id := 1, type := "Attack", payload := [], caused_by := none,
    status := EventStatus.pending, group_id := none, prevents_group := false }

/-- A stack item popping the pending `Attack` event with the
before-scheduled flag still unset. -/
def wItemA : StackItem :=
  { kind := ItemKind.event, ref_id := 1, created_at_order := 0,
    before_scheduled := false }

/-- An engine holding the `Attack` event on the stack with an empty
ruleset: nothing can react to anything. -/
def wEngA : Engine :=
  { ruleset := [], controllers := [(10, 1), (11, 2)], active_player := 1,
    rng_seed := 0,
    event_registry := { next_id := 2, events := [wAttack] },
    reaction_registry := { next_id := 0, reactions := [] },
    stack := [wItemA], stack_order := 1, limiters := { counts := [] },
    state := wState, log := [], pending_input := none }

/-- The same engine with before-rules that do match `Attack`. -/
def wEngB : Engine :=
  { wEngA with ruleset := [wRuleA, wRuleB, wRuleC] }

/-- An action whose `phase_allows` precondition fails in `wState`. -/
def wBadAction : ActionDef :=
  { action_id := "play_card", preconditions := [Precond.phase_allows 2],
    event_type := "CardPlayed", payload := [] }

/-- A limiter tracker where rule 3 of source 11 has already fired this
turn. -/
def wTracker : LimiterTracker :=
  { counts := [((3, 11, LimiterScope.per_turn), 1)] }

/-! Helper lemmas shared between the claim theorems. -/

/-- Unregistering an id removes every entry carrying it. -/
theorem get_unregister_self (reg : EventRegistry) (i : Nat) :
    (reg.unregister i).get i = none := by
  unfold EventRegistry.get EventRegistry.unregister
  rw [List.find?_eq_none]
  intro x hx
  have hpx := List.of_mem_filter hx
  simpa using hpx

/-- Registering reaction instances touches only the reaction registry and
the order counter; the produced stack items are all reaction items, one
per rule. -/
theorem register_reactions_frame (cause : Nat) (rs : List TriggerRule) :
    ∀ eng : Engine,
      (register_reactions eng cause rs).1.event_registry = eng.event_registry
      ∧ (register_reactions eng cause rs).1.state = eng.state
      ∧ (register_reactions eng cause rs).1.log = eng.log
      ∧ (register_reactions eng cause rs).1.stack = eng.stack
      ∧ (register_reactions eng cause rs).1.limiters = eng.limiters
      ∧ (register_reactions eng cause rs).1.ruleset = eng.ruleset
      ∧ (register_reactions eng cause rs).1.controllers = eng.controllers
      ∧ (register_reactions eng cause rs).1.active_player = eng.active_player
      ∧ (register_reactions eng cause rs).1.pending_input = eng.pending_input
      ∧ (register_reactions eng cause rs).2.length = rs.length
      ∧ ∀ it ∈ (register_reactions eng cause rs).2, it.kind = ItemKind.reaction := by
  induction rs with
  | nil => intro eng; simp [register_reactions]
  | cons r rest ih =>
    intro eng
    have h := ih { eng with
      reaction_registry :=
        { next_id := eng.reaction_registry.next_id + 1,
          reactions := eng.reaction_registry.reactions ++
            [{ id := eng.reaction_registry.next_id, rule := r, caused_by := cause }] },
      stack_order := eng.stack_order + 1 }
    simp only [register_reactions]
    refine ⟨h.1, h.2.1, h.2.2.1, h.2.2.2.1, h.2.2.2.2.1, h.2.2.2.2.2.1,
      h.2.2.2.2.2.2.1, h.2.2.2.2.2.2.2.1, h.2.2.2.2.2.2.2.2.1, ?_, ?_⟩
    · simpa using h.2.2.2.2.2.2.2.2.2.1
    · intro it hit
      rcases List.mem_cons.mp hit with heq | hmem
      · rw [heq]
      · exact h.2.2.2.2.2.2.2.2.2.2 it hmem

theorem register_reactions_event_registry (cause : Nat) (rs : List TriggerRule)
    (eng : Engine) :
    (register_reactions eng cause rs).1.event_registry = eng.event_registry :=
  (register_reactions_frame cause rs eng).1

theorem register_reactions_state (cause : Nat) (rs : List TriggerRule)
    (eng : Engine) :
    (register_reactions eng cause rs).1.state = eng.state :=
  (register_reactions_frame cause rs eng).2.1

theorem register_reactions_log (cause : Nat) (rs : List TriggerRule)
    (eng : Engine) :
    (register_reactions eng cause rs).1.log = eng.log :=
  (register_reactions_frame cause rs eng).2.2.1

theorem register_reactions_stack (cause : Nat) (rs : List TriggerRule)
    (eng : Engine) :
    (register_reactions eng cause rs).1.stack = eng.stack :=
  (register_reactions_frame cause rs eng).2.2.2.1

/-- Full characterization of `_resolve_event` on a prevented
group-preventing event: the group is prevented in the registry, one
`EventPrevented` projection is registered and pushed, the popped event is
unregistered, and the trace records prevention, emission and
unregistration in order. -/
theorem resolve_event_prevented_spec (eng : Engine) (item : StackItem)
    (event : Event) (G : Nat)
    (hstatus : event.status = EventStatus.prevented)
    (hpg : event.prevents_group = true)
    (hgid : event.group_id = some G) :
    _resolve_event eng item event =
      ({ eng with
          event_registry :=
            { next_id := eng.event_registry.next_id + 1,
              events := ((eng.event_registry.events.map (prevent_in_group G))
                ++ [mk_event_prevented event eng.event_registry.next_id]).filter
                (fun e => ¬ e.id = item.ref_id) },
          stack := { kind := ItemKind.event, ref_id := eng.event_registry.next_id,
                     created_at_order := eng.stack_order,
                     before_scheduled := false } :: eng.stack,
          stack_order := eng.stack_order + 1 },
       [ResolveOp.prevent_group G, ResolveOp.emit_prevented event.id,
        ResolveOp.unregister item.ref_id]) := by
  unfold _resolve_event
  rw [hpg, hgid]
  simp [hstatus, prevent_group_step, _prevent_event_group,
    _push_event_and_resolve, EventRegistry.register, EventRegistry.unregister]

/-- Characterization of `_resolve_event` on a non-prevented event: it is
applied to state, persisted, and unregistered, with after-discovery in
between. -/
theorem resolve_event_applied_spec (eng : Engine) (item : StackItem)
    (event : Event)
    (hstatus : ¬ event.status = EventStatus.prevented) :
    (_resolve_event eng item event).2 =
      [ResolveOp.apply_ev event.id, ResolveOp.discover_after event.id,
       ResolveOp.unregister item.ref_id]
    ∧ (_resolve_event eng item event).1.event_registry
        = EventRegistry.unregister
            { next_id := eng.event_registry.next_id,
              events := eng.event_registry.events.map
                (fun e => if e.id = event.id then { event with status := EventStatus.applied } else e) }
            item.ref_id
    ∧ (_resolve_event eng item event).1.state
        = eng.state.apply_event { event with status := EventStatus.applied }
    ∧ (_resolve_event eng item event).1.log
        = eng.log ++ [{ event with status := EventStatus.applied }] := by
  unfold _resolve_event
  rw [if_neg hstatus]
  simp [push_all, register_reactions_event_registry, register_reactions_state,
    register_reactions_log]

/-- A prevented event leaves state, log and the applied-id trace
untouched. -/
theorem resolve_event_prevented_frame (eng : Engine) (item : StackItem)
    (event : Event) (h : event.status = EventStatus.prevented) :
    (_resolve_event eng item event).1.state = eng.state
    ∧ (_resolve_event eng item event).1.log = eng.log
    ∧ applied_ids (_resolve_event eng item event).2 = [] := by
  unfold _resolve_event
  cases hpg : event.prevents_group <;> cases hg : event.group_id <;>
    simp [h, prevent_group_step, _push_event_and_resolve,
      EventRegistry.register, applied_ids]

/-- Resolving a reaction emits no persisted event directly: it only
pushes the produced event for later resolution. -/
theorem apply_reaction_frame (eng : Engine) (item : StackItem) :
    (apply_reaction eng item).1.log = eng.log
    ∧ (apply_reaction eng item).1.state = eng.state
    ∧ applied_ids (apply_reaction eng item).2 = [] := by
  unfold apply_reaction
  cases h : eng.reaction_registry.get item.ref_id <;> simp [applied_ids]

theorem applied_ids_cons_pop (i : Nat) (ops : List ResolveOp) :
    applied_ids (ResolveOp.pop i :: ops) = applied_ids ops := rfl

theorem applied_ids_cons_before (i : Nat) (ops : List ResolveOp) :
    applied_ids (ResolveOp.discover_before i :: ops) = applied_ids ops := rfl

/-- Bumping one limiter counter never decreases any counter. -/
theorem tget_tbump_le (l : List (LimiterKey × Nat)) (k k' : LimiterKey) :
    tget l k ≤ tget (tbump l k') k := by
  induction l with
  | nil =>
    unfold tbump tget
    split <;> simp [tget]
  | cons q rest ih =>
    by_cases h1 : q.1 = k'
    · simp only [tbump, if_pos h1]
      show (if q.1 = k then q.2 else tget rest k)
          ≤ (if q.1 = k then q.2 + 1 else tget rest k)
      split
      · omega
      · exact Nat.le_refl _
    · simp only [tbump, if_neg h1]
      show (if q.1 = k then q.2 else tget rest k)
          ≤ (if q.1 = k then q.2 else tget (tbump rest k') k)
      split
      · exact Nat.le_refl _
      · exact ih

/-- Materialization only drops reactions; it never invents or reorders
them. -/
theorem materialize_sublist (rules : List TriggerRule) :
    ∀ t : LimiterTracker, (materialize_reactions t rules).2.Sublist rules := by
  induction rules with
  | nil => intro t; simp [materialize_reactions]
  | cons r rest ih =>
    intro t
    unfold materialize_reactions
    cases hl : r.limiter with
    | none => exact (ih t).cons₂ r
    | some lim =>
      by_cases hc : lim.cap ≤ t.get (r.rule_id, r.source_id, lim.scope)
      · simp only [hc, if_pos, if_true]
        exact (ih t).cons r
      · simp only [hc, if_neg, if_false]
        exact (ih (t.bump (r.rule_id, r.source_id, lim.scope))).cons₂ r

/-- A reaction whose counter already reached its cap is never kept,
wherever it sits in the discovered list. -/
theorem capped_never_materialized (r : TriggerRule) (lim : Limiter)
    (hlim : r.limiter = some lim) (rules : List TriggerRule) :
    ∀ t : LimiterTracker,
      lim.cap ≤ t.get (r.rule_id, r.source_id, lim.scope) →
      r ∉ (materialize_reactions t rules).2 := by
  induction rules with
  | nil => intro t _; simp [materialize_reactions]
  | cons q rest ih =>
    intro t hcap
    unfold materialize_reactions
    cases hq : q.limiter with
    | none =>
      intro hmem
      rcases List.mem_cons.mp hmem with heq | hmem2
      · rw [heq, hq] at hlim
        cases hlim
      · exact ih t hcap hmem2
    | some lim' =>
      by_cases hc : lim'.cap ≤ t.get (q.rule_id, q.source_id, lim'.scope)
      · simp only [hc, if_pos, if_true]
        exact ih t hcap
      · simp only [hc, if_neg, if_false]
        intro hmem
        rcases List.mem_cons.mp hmem with heq | hmem2
        · subst heq
          rw [hq] at hlim
          cases hlim
          exact hc hcap
        · refine ih (t.bump (q.rule_id, q.source_id, lim'.scope)) ?_ hmem2
          exact le_trans hcap (tget_tbump_le _ _ _)

/-- One `_resolve_event` step appends exactly the events it folds into
state, in order. -/
theorem resolve_event_delta (eng : Engine) (item : StackItem) (event : Event) :
    ∃ d : List Event,
      (_resolve_event eng item event).1.log = eng.log ++ d
      ∧ (_resolve_event eng item event).1.state = replay_log eng.state d
      ∧ d.map Event.id = applied_ids (_resolve_event eng item event).2 := by
  by_cases h : event.status = EventStatus.prevented
  · obtain ⟨h1, h2, h3⟩ := resolve_event_prevented_frame eng item event h
    exact ⟨[], by simp [h2], by simp [replay_log, h1], by simp [h3]⟩
  · obtain ⟨hops, hreg, hstate, hlog⟩ := resolve_event_applied_spec eng item event h
    refine ⟨[{ event with status := EventStatus.applied }], hlog, ?_, ?_⟩
    · simpa [replay_log] using hstate
    · rw [hops]
      simp [applied_ids]

/-- One `resolveTop` step appends exactly the events it folds into state,
in order, matching its applied-id trace. -/
theorem resolveTop_delta (eng : Engine) :
    ∃ d : List Event,
      (resolveTop eng).1.log = eng.log ++ d
      ∧ (resolveTop eng).1.state = replay_log eng.state d
      ∧ d.map Event.id = applied_ids (resolveTop eng).2 := by
  obtain ⟨rs, ctr, ap, seed, ereg, rreg, stk, so, lim, st, lg, pin⟩ := eng
  unfold resolveTop
  dsimp only
  rcases stk with _ | ⟨item, rest⟩
  · exact ⟨[], by simp [replay_log, applied_ids]⟩
  · obtain ⟨k, rid, ord, bs⟩ := item
    dsimp only
    cases k with
    | reaction =>
      obtain ⟨h1, h2, h3⟩ := apply_reaction_frame
        { ruleset := rs, controllers := ctr, active_player := ap,
          rng_seed := seed, event_registry := ereg, reaction_registry := rreg,
          stack := rest, stack_order := so, limiters := lim, state := st,
          log := lg, pending_input := pin }
        { kind := ItemKind.reaction, ref_id := rid, created_at_order := ord,
          before_scheduled := bs }
      refine ⟨[], ?_, ?_, ?_⟩
      · rw [List.append_nil]
        exact h1
      · exact h2
      · rw [List.map_nil, applied_ids_cons_pop]
        exact h3.symm
    | event =>
      rcases hget : EventRegistry.get ereg rid with _ | event
      · exact ⟨[], by simp [replay_log, applied_ids]⟩
      · cases bs with
        | true =>
          obtain ⟨d, h1, h2, h3⟩ := resolve_event_delta
            { ruleset := rs, controllers := ctr, active_player := ap,
              rng_seed := seed, event_registry := ereg, reaction_registry := rreg,
              stack := rest, stack_order := so, limiters := lim, state := st,
              log := lg, pending_input := pin }
            { kind := ItemKind.event, ref_id := rid, created_at_order := ord,
              before_scheduled := true }
            event
          refine ⟨d, ?_, ?_, ?_⟩
          · simpa using h1
          · simpa [replay_log] using h2
          · simpa [applied_ids_cons_pop] using h3
        | false =>
          cases hmat : (materialize_reactions lim
              (discover_reactions rs ap ctr Timing.before event)).2.isEmpty with
          | false =>
            refine ⟨[], ?_, ?_, ?_⟩ <;>
              simp [hmat, replay_log, applied_ids, push_all, Engine.push,
                register_reactions_log, register_reactions_state]
          | true =>
            obtain ⟨d, h1, h2, h3⟩ := resolve_event_delta
              { ruleset := rs, controllers := ctr, active_player := ap,
                rng_seed := seed, event_registry := ereg, reaction_registry := rreg,
                stack := rest, stack_order := so,
                limiters := (materialize_reactions lim
                  (discover_reactions rs ap ctr Timing.before event)).1,
                state := st, log := lg, pending_input := pin }
              { kind := ItemKind.event, ref_id := rid, created_at_order := ord,
                before_scheduled := false }
              event
            refine ⟨d, ?_, ?_, ?_⟩
            · simpa [hmat] using h1
            · simpa [hmat, replay_log] using h2
            · simpa [hmat, applied_ids_cons_pop, applied_ids_cons_before] using h3

/-- The resolution loop appends exactly the events it folds into state,
in pop-and-apply order. -/
theorem runLoop_delta (n : Nat) :
    ∀ eng : Engine, ∃ d : List Event,
      (runLoop n eng).1.log = eng.log ++ d
      ∧ (runLoop n eng).1.state = replay_log eng.state d
      ∧ d.map Event.id = applied_ids (runLoop n eng).2 := by
  induction n with
  | zero => exact fun eng => ⟨[], by simp [runLoop, replay_log, applied_ids]⟩
  | succ n ih =>
    intro eng
    by_cases hs : eng.stack.isEmpty
    · refine ⟨[], ?_, ?_, ?_⟩ <;> simp [runLoop, hs, replay_log, applied_ids]
    · obtain ⟨d1, h11, h12, h13⟩ := resolveTop_delta eng
      obtain ⟨d2, h21, h22, h23⟩ := ih (resolveTop eng).1
      refine ⟨d1 ++ d2, ?_, ?_, ?_⟩
      · show (runLoop (n + 1) eng).1.log = eng.log ++ (d1 ++ d2)
        unfold runLoop
        simp only [hs, Bool.false_eq_true, if_false, reduceIte]
        rw [h21, h11, List.append_assoc]
      · unfold runLoop
        simp only [hs, Bool.false_eq_true, if_false, reduceIte]
        rw [h22, h12]
        simp [replay_log, List.foldl_append]
      · unfold runLoop
        simp only [hs, Bool.false_eq_true, if_false, reduceIte]
        rw [List.map_append, h13, h23]
        simp [applied_ids, List.filterMap_append]

/-! Claim theorems, witnesses and counterexamples. -/

/-- C1: when a prevented event carries `prevents_group` and a group id,
`_resolve_event` transitions every other still-pending event of that
group to Prevented within the single resolution step — the scan is the
order-preserving registry pass of `_prevent_event_group` — and the step
pops nothing, so the group is prevented before any member can be popped
for resolution. -/
theorem group_prevention_atomic (eng : Engine) (item : StackItem)
    (event : Event) (G : Nat)
    (hget : eng.event_registry.get item.ref_id = some event)
    (hnd : (eng.event_registry.events.map Event.id).Nodup)
    (hstatus : event.status = EventStatus.prevented)
    (hpg : event.prevents_group = true)
    (hgid : event.group_id = some G) :
    (∀ e ∈ eng.event_registry.events,
        e.group_id = some G → e.status = EventStatus.pending →
          { e with status := EventStatus.prevented }
            ∈ (_resolve_event eng item event).1.event_registry.events)
    ∧ ∀ i : Nat, ResolveOp.pop i ∉ (_resolve_event eng item event).2 := by
  rw [resolve_event_prevented_spec eng item event G hstatus hpg hgid]
  constructor
  · intro e he hgrp hpend
    have hmem := List.mem_of_find?_eq_some hget
    have hpa : event.id = item.ref_id := by
      have := List.find?_some hget
      simpa using this
    have hne : ¬ e.id = item.ref_id := by
      intro heq
      have heq2 : e = event :=
        List.inj_on_of_nodup_map hnd he hmem (by rw [heq, hpa])
      rw [heq2, hstatus] at hpend
      cases hpend
    refine List.mem_filter.mpr ⟨?_, by simpa using hne⟩
    refine List.mem_append_left _ ?_
    refine List.mem_map.mpr ⟨e, he, ?_⟩
    simp [prevent_in_group, hgrp, hpend]
  · intro i
    simp

theorem group_prevention_atomic_witness :
    { wEv3 with status := EventStatus.prevented }
      ∈ (_resolve_event wEng1 wItem1 wEv2).1.event_registry.events :=
  (group_prevention_atomic wEng1 wItem1 wEv2 1 (by decide) (by decide)
    (by decide) (by decide) (by decide)).1 wEv3 (by decide) (by decide)
    (by decide)

/-- C2: an event popped with status Prevented never reaches the
state-mutating apply step — the derived state and the persisted log are
untouched and no apply operation appears in the step's trace. -/
theorem prevented_event_never_applies (eng : Engine) (item : StackItem)
    (event : Event) (h : event.status = EventStatus.prevented) :
    (_resolve_event eng item event).1.state = eng.state
    ∧ (_resolve_event eng item event).1.log = eng.log
    ∧ ∀ i : Nat, ResolveOp.apply_ev i ∉ (_resolve_event eng item event).2 := by
  unfold _resolve_event
  cases hpg : event.prevents_group <;> cases hg : event.group_id <;>
    simp [h, prevent_group_step, _push_event_and_resolve, EventRegistry.register]

theorem prevented_event_never_applies_witness :
    (_resolve_event wEng1 wItem1 wEv2).1.state = wEng1.state
    ∧ (_resolve_event wEng1 wItem1 wEv2).1.log = wEng1.log
    ∧ ResolveOp.apply_ev 2 ∉ (_resolve_event wEng1 wItem1 wEv2).2 := by
  have h := prevented_event_never_applies wEng1 wItem1 wEv2 (by decide)
  exact ⟨h.1, h.2.1, h.2.2 2⟩

/-- C3: two runs of the resolution loop from equal inputs (initial state,
pushed actions, RNG seed — the whole engine) are identical; the persisted
log lists, in order, exactly the events applied by the pop sequence of the
loop; and replaying the log from the initial state reproduces the final
derived state. -/
theorem determinism_and_replay (n : Nat) (eng eng2 : Engine)
    (hsame : eng2 = eng) (hlog : eng.log = []) :
    runLoop n eng2 = runLoop n eng
    ∧ (runLoop n eng).1.state = replay_log eng.state (runLoop n eng).1.log
    ∧ ((runLoop n eng).1.log).map Event.id = applied_ids (runLoop n eng).2 := by
  rw [hsame]
  obtain ⟨d, h1, h2, h3⟩ := runLoop_delta n eng
  rw [hlog] at h1
  simp only [List.nil_append] at h1
  exact ⟨rfl, by rw [h1]; exact h2, by rw [h1]; exact h3⟩

theorem determinism_and_replay_witness :
    runLoop 8 wEngB = runLoop 8 wEngB
    ∧ (runLoop 8 wEngB).1.state = replay_log wEngB.state (runLoop 8 wEngB).1.log
    ∧ ((runLoop 8 wEngB).1.log).map Event.id = applied_ids (runLoop 8 wEngB).2 :=
  determinism_and_replay 8 wEngB wEngB rfl rfl

/-- C4: discovery returns the reactions matching the event in a
deterministic total order — reactions of sources controlled by the active
player first, then by declared rule id, then by declaration order within
a source (a stable sort); the result is a permutation of the matching
rules and identical inputs yield the identical ordered list. -/
theorem discovery_deterministic_total_order (rs : List TriggerRule)
    (active : Nat) (ctr : List (Nat × Nat)) (tm : Timing) (e e' : Event)
    (he : e' = e) :
    discover_reactions rs active ctr tm e' = discover_reactions rs active ctr tm e
    ∧ (discover_reactions rs active ctr tm e).Perm
        (rs.filter (fun r => rule_matches tm e r))
    ∧ (discover_reactions rs active ctr tm e).Sorted (reaction_le active ctr) := by
  subst he
  exact ⟨rfl, List.perm_insertionSort _ _, List.sorted_insertionSort _ _⟩

theorem discovery_deterministic_total_order_witness :
    discover_reactions [wRuleA, wRuleB, wRuleC] 1 [(10, 1), (11, 2)]
        Timing.before wAttack
      = discover_reactions [wRuleA, wRuleB, wRuleC] 1 [(10, 1), (11, 2)]
        Timing.before wAttack
    ∧ (discover_reactions [wRuleA, wRuleB, wRuleC] 1 [(10, 1), (11, 2)]
        Timing.before wAttack).Perm
        ([wRuleA, wRuleB, wRuleC].filter
          (fun r => rule_matches Timing.before wAttack r))
    ∧ (discover_reactions [wRuleA, wRuleB, wRuleC] 1 [(10, 1), (11, 2)]
        Timing.before wAttack).Sorted (reaction_le 1 [(10, 1), (11, 2)]) :=
  discovery_deterministic_total_order [wRuleA, wRuleB, wRuleC] 1
    [(10, 1), (11, 2)] Timing.before wAttack wAttack rfl

/-- C5 counterexample: in `resolveTop`, a popped event whose
before-scheduled flag is unset is pushed back only when the discovered
before-set is nonempty.  With an empty ruleset the `Attack` event is
popped with its flag unset, its apply step executes in that same pop, and
nothing is pushed back — refuting the claim that every such pop reschedules
the event. -/
theorem before_unscheduled_applies_cex :
    wEngA.stack = [wItemA]
    ∧ wItemA.kind = ItemKind.event
    ∧ wItemA.before_scheduled = false
    ∧ ResolveOp.apply_ev 1 ∈ (resolveTop wEngA).2
    ∧ (resolveTop wEngA).1.stack = [] := by decide

/-- C5 (amended): when the popped event's flag is unset and the
materialized before-set is nonempty, the loop pushes the event back with
its flag set, pushes the discovered before-reactions above it, and does
not run the apply step in that pop. -/
theorem before_reactions_scheduled_first (eng : Engine) (item : StackItem)
    (rest : List StackItem) (event : Event)
    (hstack : eng.stack = item :: rest)
    (hkind : item.kind = ItemKind.event)
    (hflag : item.before_scheduled = false)
    (hget : eng.event_registry.get item.ref_id = some event)
    (hne : (materialize_reactions eng.limiters
        (discover_reactions eng.ruleset eng.active_player eng.controllers
          Timing.before event)).2.isEmpty = false) :
    (∃ ritems : List StackItem,
        (resolveTop eng).1.stack
          = ritems ++ { item with before_scheduled := true } :: rest
        ∧ ritems.length = (materialize_reactions eng.limiters
            (discover_reactions eng.ruleset eng.active_player eng.controllers
              Timing.before event)).2.length
        ∧ ∀ it ∈ ritems, it.kind = ItemKind.reaction)
    ∧ (resolveTop eng).1.state = eng.state
    ∧ (resolveTop eng).1.log = eng.log
    ∧ ∀ i : Nat, ResolveOp.apply_ev i ∉ (resolveTop eng).2 := by
  obtain ⟨k, rid, ord, bs⟩ := item
  simp only at hkind hflag hget
  subst hkind
  subst hflag
  unfold resolveTop
  simp only [hstack]
  simp only [hget, hne, Bool.false_eq_true, if_false, reduceIte, push_all,
    Engine.push]
  simp only [register_reactions_stack, register_reactions_state,
    register_reactions_log]
  refine ⟨⟨_, rfl, ?_, ?_⟩, trivial, trivial, ?_⟩
  · exact (register_reactions_frame _ _ _).2.2.2.2.2.2.2.2.2.1
  · exact (register_reactions_frame _ _ _).2.2.2.2.2.2.2.2.2.2
  · intro i
    simp

theorem before_reactions_scheduled_first_witness :
    (resolveTop wEngB).1.state = wEngB.state
    ∧ (resolveTop wEngB).1.log = wEngB.log
    ∧ ResolveOp.apply_ev 1 ∉ (resolveTop wEngB).2 := by
  have h := before_reactions_scheduled_first wEngB wItemA [] wAttack
    (by decide) (by decide) (by decide) (by decide) (by decide)
  exact ⟨h.2.1, h.2.2.1, h.2.2.2 1⟩

/-- C6: a discovered reaction whose fire counter keyed by
(rule id, source id, scope) has reached its declared cap is never
materialized, regardless of where it appears in the discovery order; it
is dropped silently — the materialized set is simply a sublist of the
discovered set, with no error. -/
theorem limiter_cap_dropped_silently (t : LimiterTracker)
    (rules : List TriggerRule) (r : TriggerRule) (lim : Limiter)
    (hlim : r.limiter = some lim)
    (hcap : lim.cap ≤ t.get (r.rule_id, r.source_id, lim.scope)) :
    r ∉ (materialize_reactions t rules).2
    ∧ (materialize_reactions t rules).2.Sublist rules :=
  ⟨capped_never_materialized r lim hlim rules t hcap,
   materialize_sublist rules t⟩

theorem limiter_cap_dropped_silently_witness :
    wRuleC ∉ (materialize_reactions wTracker [wRuleC, wRuleA]).2
    ∧ (materialize_reactions wTracker [wRuleC, wRuleA]).2.Sublist
        [wRuleC, wRuleA] :=
  limiter_cap_dropped_silently wTracker [wRuleC, wRuleA] wRuleC
    { scope := LimiterScope.per_turn, cap := 1 } (by decide) (by decide)

/-- C7: when a prevented event prevents its group, exactly one
`EventPrevented` projection event is created and pushed — for the
originating event only, whatever the size of the group: the resulting
registry is the group-prevention pass of the old one plus that single
appended projection, and the stack receives a single item for it. -/
theorem event_prevented_emitted_once (eng : Engine) (item : StackItem)
    (event : Event) (G : Nat)
    (hstatus : event.status = EventStatus.prevented)
    (hpg : event.prevents_group = true)
    (hgid : event.group_id = some G) :
    (_resolve_event eng item event).1.event_registry.events
      = ((eng.event_registry.events.map (prevent_in_group G))
          ++ [mk_event_prevented event eng.event_registry.next_id]).filter
          (fun e => ¬ e.id = item.ref_id)
    ∧ (mk_event_prevented event eng.event_registry.next_id).type
        = "EventPrevented"
    ∧ (mk_event_prevented event eng.event_registry.next_id).caused_by
        = some event.id
    ∧ pgetN (mk_event_prevented event eng.event_registry.next_id).payload
        "prevented_event_id" = event.id
    ∧ (_resolve_event eng item event).1.stack
      = { kind := ItemKind.event, ref_id := eng.event_registry.next_id,
          created_at_order := eng.stack_order, before_scheduled := false }
        :: eng.stack := by
  rw [resolve_event_prevented_spec eng item event G hstatus hpg hgid]
  exact ⟨rfl, rfl, rfl, by simp [mk_event_prevented, pgetN, List.find?], rfl⟩

theorem event_prevented_emitted_once_witness :
    (_resolve_event wEng1 wItem1 wEv2).1.event_registry.events
      = ((wEng1.event_registry.events.map (prevent_in_group 1))
          ++ [mk_event_prevented wEv2 6]).filter (fun e => ¬ e.id = 2)
    ∧ (mk_event_prevented wEv2 6).type = "EventPrevented"
    ∧ pgetN (mk_event_prevented wEv2 6).payload "prevented_event_id" = 2 := by
  have h := event_prevented_emitted_once wEng1 wItem1 wEv2 1 (by decide)
    (by decide) (by decide)
  exact ⟨h.1, h.2.1, h.2.2.2.1⟩

/-- C8 counterexample: the prevented `CardMoved` event is unregistered by
`_resolve_event` without any after-reaction discovery for it — the trace
holds its unregistration but no `discover_after` for it — refuting the
claim that removal always happens after the event's after-reactions have
been discovered, for prevented events as well as applied ones. -/
theorem registry_removed_without_after_discovery_cex :
    wEv2.status = EventStatus.prevented
    ∧ ResolveOp.unregister 2 ∈ (_resolve_event wEng1 wItem1 wEv2).2
    ∧ ResolveOp.discover_after 2 ∉ (_resolve_event wEng1 wItem1 wEv2).2 := by
  decide

/-- C8 (amended): a resolved event's registry entry is removed exactly
once per resolution step and is gone afterwards; for an applied event the
removal follows the apply step and its after-reaction discovery; for a
prevented event the removal follows the `EventPrevented` emission and no
after-reaction discovery happens for the event itself. -/
theorem registry_removed_once_after_terminal (eng : Engine)
    (item : StackItem) (event : Event)
    (hget : eng.event_registry.get item.ref_id = some event) :
    ((_resolve_event eng item event).2).count (ResolveOp.unregister item.ref_id) = 1
    ∧ (_resolve_event eng item event).1.event_registry.get item.ref_id = none
    ∧ (¬ event.status = EventStatus.prevented →
        (_resolve_event eng item event).2 =
          [ResolveOp.apply_ev event.id, ResolveOp.discover_after event.id,
           ResolveOp.unregister item.ref_id])
    ∧ (event.status = EventStatus.prevented →
        ResolveOp.emit_prevented event.id ∈ (_resolve_event eng item event).2
        ∧ ResolveOp.discover_after event.id ∉ (_resolve_event eng item event).2) := by
  by_cases h : event.status = EventStatus.prevented
  · unfold _resolve_event
    cases hpg : event.prevents_group <;> cases hg : event.group_id <;>
      simp [h, prevent_group_step, _push_event_and_resolve,
        EventRegistry.register, get_unregister_self, List.count_cons,
        List.count_nil]
  · obtain ⟨hops, hreg, hstate, hlog⟩ := resolve_event_applied_spec eng item event h
    refine ⟨?_, ?_, fun _ => hops, fun hc => absurd hc h⟩
    · rw [hops]
      simp [List.count_cons, List.count_nil]
    · rw [hreg]
      exact get_unregister_self _ _

theorem registry_removed_once_after_terminal_witness :
    ((_resolve_event wEng1 wItem1 wEv2).2).count (ResolveOp.unregister 2) = 1
    ∧ (_resolve_event wEng1 wItem1 wEv2).1.event_registry.get 2 = none
    ∧ ResolveOp.emit_prevented 2 ∈ (_resolve_event wEng1 wItem1 wEv2).2 := by
  have h := registry_removed_once_after_terminal wEng1 wItem1 wEv2 (by decide)
  exact ⟨h.1, h.2.1, (h.2.2.2 (by decide)).1⟩

/-- C9: an inbound action or input answer that fails validation is
rejected with the error message and the engine is completely unchanged —
no state mutation happens on the error path. -/
theorem validation_rejected_no_mutation (eng : Engine) (a : ActionDef)
    (input_id : Nat) (answers : List Nat) (m1 m2 : String)
    (h1 : validate_action eng a = some m1)
    (h2 : validate_input eng input_id answers = some m2) :
    submit_action eng a = (eng, some m1)
    ∧ submit_input eng input_id answers = (eng, some m2) := by
  unfold submit_action submit_input
  rw [h1, h2]
  exact ⟨rfl, rfl⟩

theorem validation_rejected_no_mutation_witness :
    submit_action wEng1 wBadAction = (wEng1, some "invalid action: play_card")
    ∧ submit_input wEng1 0 [] = (wEng1, some "no pending input") :=
  validation_rejected_no_mutation wEng1 wBadAction 0 [] _ _ (by decide)
    (by decide)

/-- C10: group prevention propagation mutates only the status field of
still-pending events of the group — every other event, every other field
of every event, and every other part of the match state are untouched. -/
theorem prevent_group_frame (eng : Engine) (G : Nat) :
    (prevent_group_step eng G).state = eng.state
    ∧ (prevent_group_step eng G).stack = eng.stack
    ∧ (prevent_group_step eng G).log = eng.log
    ∧ (prevent_group_step eng G).reaction_registry = eng.reaction_registry
    ∧ (prevent_group_step eng G).limiters = eng.limiters
    ∧ (prevent_group_step eng G).pending_input = eng.pending_input
    ∧ (prevent_group_step eng G).ruleset = eng.ruleset
    ∧ (prevent_group_step eng G).event_registry.next_id = eng.event_registry.next_id
    ∧ (prevent_group_step eng G).event_registry.events.length
        = eng.event_registry.events.length
    ∧ ∀ i : Nat, ∀ e : Event, eng.event_registry.events[i]? = some e →
        (prevent_group_step eng G).event_registry.events[i]? =
          some (if e.group_id = some G ∧ e.status = EventStatus.pending
                then { e with status := EventStatus.prevented } else e) := by
  refine ⟨rfl, rfl, rfl, rfl, rfl, rfl, rfl, rfl, ?_, ?_⟩
  · simp [prevent_group_step, _prevent_event_group]
  · intro i e h
    simp [prevent_group_step, _prevent_event_group, List.getElem?_map, h,
      prevent_in_group]

theorem prevent_group_frame_witness :
    (prevent_group_step wEng1 1).event_registry.events[0]? =
      some { wEv1 with status := EventStatus.prevented } := by
  have h := (prevent_group_frame wEng1 1).2.2.2.2.2.2.2.2.2 0 wEv1 (by decide)
  simpa using h

end Teapot
